import Mathlib

/-!
Verification of the interaction controller of `sketch.js` (the later, phrase-matching
variant of the sketch: `drawUI`, `showResult`, `measureDistance`, `measureVelocity`
and the `crtTVNames` catalogue).

Shallow embedding conventions:
* JavaScript strings are `String`; `String.split` with the regex
  `[ +\-_` `'\.\?!]+` is modelled by `tokenize` below (maximal runs of
  separator characters act as one separator, and — as in JavaScript — a
  leading or trailing run yields an empty token).
* `toLowerCase` is modelled on the ASCII range by `lowChar`/`lowerStr`
  (the catalogue and all utterances of interest are ASCII).
* `millis()` timestamps are integers (milliseconds); the float distances and
  velocities are rationals.  `Math.sqrt` (a float operation whose exact value
  never matters to any claim) is abstracted as an explicit function argument
  `sqrtFn` of the geometric measures.
* `floor(random(n))`, the external random draw, is an oracle input `rand`
  to the step functions; the code guarantees only `rand < n`.
-/

/-- Separator class of the `showResult` split regex `[ +\-_`\'.?!]+` of
`sketch.js`: space, plus, hyphen, underscore, backtick (code 96),
apostrophe (code 39), period, question mark, exclamation mark. -/
def isSep (c : Char) : Bool :=
  c = ' ' || c = '+' || c = '-' || c = '_' || c = Char.ofNat 96 ||
  c = Char.ofNat 39 || c = '.' || c = '?' || c = '!'

/-- Modelled from the spec: the separator set the spec claims for the
tokenizer — space, hyphen, underscore, backtick, apostrophe, period,
question mark, exclamation mark — i.e. without the plus sign. -/
def isSepSpec (c : Char) : Bool :=
  c = ' ' || c = '-' || c = '_' || c = Char.ofNat 96 ||
  c = Char.ofNat 39 || c = '.' || c = '?' || c = '!'

/-- The separator set of the code: the spec set together with `+`. -/
def isSepAmendedSet (c : Char) : Bool :=
  [' ', '+', '-', '_', Char.ofNat 96, Char.ofNat 39, '.', '?', '!'].contains c

mutual

/-- Scanner state "inside a token": `cur` holds the (reversed) characters of
the token being built.  Mirrors JavaScript `String.prototype.split` with a
character-class-plus regex. -/
def splitRunsTok (sep : Char → Bool) : List Char → List Char → List (List Char)
  | [], cur => [cur.reverse]
  | c :: cs, cur =>
    if sep c then cur.reverse :: splitRunsSep sep cs
    else splitRunsTok sep cs (c :: cur)

/-- Scanner state "inside a separator run": further separator characters are
absorbed into the same run. -/
def splitRunsSep (sep : Char → Bool) : List Char → List (List Char)
  | [] => [[]]
  | c :: cs => if sep c then splitRunsSep sep cs else splitRunsTok sep cs [c]

end

/-- Model of `s.split(regex)` where `regex` is a character class of `sep` under `+`:
the pieces of `s` between maximal runs of separator characters. -/
def splitRuns (sep : Char → Bool) (s : String) : List String :=
  (splitRunsTok sep s.data []).map String.mk

/-- Model of `resultString.split(/[ +\-_`\'.?!]+/)` from `showResult`. -/
def tokenize (s : String) : List String := splitRuns isSep s

/-- Modelled from the spec: the tokenizer as the spec describes it, splitting
on the eight claimed characters only. -/
def tokenizeSpecClaim (s : String) : List String := splitRuns isSepSpec s

/-- Model of `nameEntry.split(" ")` from `showResult`: every single space separates
(JavaScript split on a plain one-character string). -/
def splitEachSpace : List Char → List Char → List (List Char)
  | [], cur => [cur.reverse]
  | c :: cs, cur =>
    if c = ' ' then cur.reverse :: splitEachSpace cs []
    else splitEachSpace cs (c :: cur)

/-- The word list of a synonym string (`nameParts` in `showResult`). -/
def splitOnSpace (s : String) : List String :=
  (splitEachSpace s.data []).map String.mk

/-- Model of `toLowerCase` on the ASCII range: `A`–`Z` (codes 65–90) map to
`a`–`z`, every other character is unchanged. -/
def lowChar (c : Char) : Char :=
  if 65 ≤ c.toNat ∧ c.toNat ≤ 90 then Char.ofNat (c.toNat + 32) else c

/-- Lowercasing of a whole string. -/
def lowerStr (s : String) : String := String.mk (s.data.map lowChar)

/-- The inner loop of `showResult`: scan the token stream `words` left to
right, consuming one matching token (case-insensitive whole-token equality)
per synonym word, in order; `wordIndex = k + 1` in the source corresponds to
recursing on the tokens after the matched one. -/
def partsFound : List String → List String → Bool
  | [], _ => true
  | _ :: _, [] => false
  | p :: ps, w :: ws =>
    if lowerStr w = lowerStr p then partsFound ps ws
    else partsFound (p :: ps) ws

/-- Whether one synonym string matches the utterance's token list. -/
def synMatchesTokens (words : List String) (nameEntry : String) : Bool :=
  partsFound (splitOnSpace nameEntry) words

/-- Whether a synonym matches an utterance (tokenizing the utterance as
`showResult` does). -/
def synMatches (utterance nameEntry : String) : Bool :=
  synMatchesTokens (tokenize utterance) nameEntry

/-- One catalogue entry matches if some of its synonyms (tried in
declaration order) matches. -/
def entryMatches (words : List String) (entry : List String) : Bool :=
  entry.any (fun nameEntry => synMatchesTokens words nameEntry)

/-- The outer loop of `showResult`: index of the first catalogue entry with a
matching synonym (`foundIndex`, with `-1` rendered as `none`). -/
def findFlowerIdx (words : List String) : List (List String) → Option Nat
  | [] => none
  | entry :: rest =>
    if entryMatches words entry then some 0
    else (findFlowerIdx words rest).map (· + 1)

/-- The phrase matcher of `showResult`: `match(utterance, catalogue)`. -/
def matchUtterance (utterance : String) (catalogue : List (List String)) : Option Nat :=
  findFlowerIdx (tokenize utterance) catalogue

/-- The flower catalogue `crtTVNames` loaded in `preload` (18 entries). -/
def crtTVNames : List (List String) :=
  [ ["daffodil", "narcissus", "jonquil"],
    ["daisy", "ox-eye", "bellis"],
    ["forget me not", "myosotis", "mouse ear"],
    ["hibiscus", "rose of sharon", "rosemallow"],
    ["iris", "flag iris", "sword lily"],
    ["jasmine", "jessamine", "carolina jasmine"],
    ["lavender", "lavandula", "purple sage"],
    ["lily of the valley", "convallaria", "may lily"],
    ["lotus", "water lily", "sacred lotus"],
    ["morning glory", "ipomoea", "bindweed"],
    ["orchid", "orchidaceae", "phalaenopsis"],
    ["peony", "paeonia", "pioney"],
    ["poppy", "papaver", "corn poppy"],
    ["rose", "rosa", "queen of flowers"],
    ["sunflower", "helianthus", "sun disk"],
    ["tulip", "tulipa", "lady tulip"],
    ["violet", "viola", "sweet violet"],
    ["wisteria", "wistaria", "glycine"] ]

/-- Catalogue size `crtTVImages.length` (the images are pushed in lockstep with the names). -/
def numFlowers : Nat := crtTVNames.length

/-- The greedy scan of `showResult` finds the synonym words exactly when the
lowercased word list is a sublist (ordered subsequence) of the lowercased
token list. -/
theorem partsFound_iff_sublist (ps ws : List String) :
    partsFound ps ws = true ↔ (ps.map lowerStr).Sublist (ws.map lowerStr) := by
  induction ws generalizing ps with
  | nil =>
    cases ps with
    | nil => simp [partsFound]
    | cons p ps' => simp [partsFound]
  | cons w ws' ih =>
    cases ps with
    | nil => simp [partsFound, List.nil_sublist]
    | cons p ps' =>
      by_cases h : lowerStr w = lowerStr p
      · have hp : partsFound (p :: ps') (w :: ws') = partsFound ps' ws' := by
          simp [partsFound, h]
        rw [hp, List.map_cons, List.map_cons, h, List.cons_sublist_cons]
        exact ih ps'
      · simp only [partsFound, if_neg h, List.map_cons]
        rw [ih (p :: ps')]
        constructor
        · intro hs
          exact List.Sublist.cons (lowerStr w) (by simpa using hs)
        · intro hs
          rcases List.cons_sublist_cons'.mp hs with hs' | ⟨heq, _⟩
          · simpa using hs'
          · exact absurd heq.symm h

/-- Requests the tick logic sends to the external speech engine
(`myRec.start()` / `myRec.stop()`). -/
inductive RecAction where
  | start
  | stop
deriving DecidableEq, Repr

/-- The mutable globals of the gesture / selection logic of `sketch.js`
(the rendering-only globals `pg`, … are omitted). -/
structure UIState where
  mouthOpen : Bool
  mouthClose : Bool
  mouthOpenTime : Int
  mouthCloseTime : Int
  velocityYTime : Int
  crtTVIndex : Nat
deriving DecidableEq, Repr

/-- Per-tick inputs of `drawUI` (camera ready, one face tracked):
`now = millis()`, `dist = distance3_4`, `vy = velocity5.y`, and the value
`rand = floor(random(crtTVImages.length))` the random draw would produce on
this tick if taken. -/
structure TickInput where
  now : Int
  dist : ℚ
  vy : ℚ
  rand : Nat
deriving DecidableEq, Repr

/-- Model of `Math.abs` on the rational model of floats. -/
def qAbs (q : ℚ) : ℚ := if q < 0 then -q else q

/-- The nose-velocity selection shift at the end of the tracking branch of
`drawUI`: when the mouth is not open, `abs(velocity5.y) > 10` and more than
500 ms passed since the last shift, cycle `crtTVIndex` by `+1` (downward
motion, `y` grows downward on screen) or `-1` (upward motion) modulo the
catalogue size. -/
def velocityShift (inp : TickInput) (s : UIState) : UIState :=
  if s.mouthOpen = false ∧ 10 < qAbs inp.vy ∧ 500 < inp.now - s.velocityYTime then
    let su := { s with velocityYTime := inp.now }
    if 0 < inp.vy then
      { su with crtTVIndex := (su.crtTVIndex + 1) % numFlowers }
    else
      { su with crtTVIndex := (su.crtTVIndex + numFlowers - 1) % numFlowers }
  else s

/-- One execution of the tracking branch of `drawUI` (lines 1130–1183 of the
source): the mouth open/close logic followed by the velocity shift.  Returns
the new state and the speech-engine requests issued this tick. -/
def tickStep (inp : TickInput) (s : UIState) : UIState × List RecAction :=
  let (s1, acts) :=
    if 3 < inp.dist then
      let (sa, a) :=
        if s.mouthOpen = false ∧ 500 < inp.now - s.mouthCloseTime then
          ({ s with mouthOpen := true, mouthOpenTime := inp.now }, [RecAction.start])
        else (s, [])
      let sb :=
        if sa.mouthClose = true ∧ 500 < inp.now - sa.mouthCloseTime then
          { sa with mouthClose := false }
        else sa
      (sb, a)
    else
      let sa := { s with mouthClose := true, mouthCloseTime := inp.now }
      if sa.mouthOpen = true ∧ 10000 < inp.now - sa.mouthOpenTime then
        ({ sa with mouthOpen := false, crtTVIndex := inp.rand }, [RecAction.stop])
      else (sa, [])
  (velocityShift inp s1, acts)

/-- Run `drawUI` ticks over a list of inputs, collecting the engine requests
in order. -/
def runTicks (inputs : List TickInput) (s : UIState) : UIState × List RecAction :=
  match inputs with
  | [] => (s, [])
  | i :: is =>
    let (s1, a1) := tickStep i s
    let (s2, a2) := runTicks is s1
    (s2, a1 ++ a2)

/-- The `showResult` speech-result callback: on a final result, match the
utterance against the catalogue; on a match display that entry, otherwise
display a random one (`rand` is the oracle value of
`floor(random(crtTVImages.length))`). -/
def showResultStep (nowT : Int) (resultValue : Bool) (resultString : String)
    (rand : Nat) (s : UIState) : UIState :=
  if resultValue then
    let s1 := { s with mouthOpen := false, mouthClose := true, mouthCloseTime := nowT }
    match matchUtterance resultString crtTVNames with
    | some i => { s1 with crtTVIndex := i }
    | none => { s1 with crtTVIndex := rand }
  else s

/-- A 2D screen-space point (`{x, y}`); an absent detection is `none`. -/
structure Pt where
  x : ℚ
  y : ℚ
deriving DecidableEq, Repr

/-- Frame-to-frame velocity record (`{x, y, speed}`). -/
structure Vel where
  x : ℚ
  y : ℚ
  speed : ℚ
deriving DecidableEq, Repr

/-- Model of `measureDistance` of `sketch.js` (drawing omitted): `null` if either
point is missing, else the Euclidean distance, with the machine square root
abstracted as `sqrtFn`. -/
def measureDistance (sqrtFn : ℚ → ℚ) : Option Pt → Option Pt → Option ℚ
  | some p1, some p2 =>
    some (sqrtFn ((p2.x - p1.x) * (p2.x - p1.x) + (p2.y - p1.y) * (p2.y - p1.y)))
  | _, _ => none

/-- Model of `measureVelocity` of `sketch.js` (drawing omitted): the zero record if
either point is missing, else the component differences and their norm. -/
def measureVelocity (sqrtFn : ℚ → ℚ) : Option Pt → Option Pt → Vel
  | some c, some p =>
    { x := c.x - p.x, y := c.y - p.y,
      speed := sqrtFn ((c.x - p.x) * (c.x - p.x) + (c.y - p.y) * (c.y - p.y)) }
  | _, _ => { x := 0, y := 0, speed := 0 }

/-- The all-false initial state of the globals (`mouthOpen = false`,
`mouthClose = false`, all timestamps `0`, `crtTVIndex = 0`). -/
def initState : UIState :=
  { mouthOpen := false, mouthClose := false, mouthOpenTime := 0,
    mouthCloseTime := 0, velocityYTime := 0, crtTVIndex := 0 }

/-- Characterization: `findFlowerIdx` returns `some i` exactly for the first matching entry:
entry `i` exists and matches, and every earlier entry fails to match. -/
theorem findFlowerIdx_eq_some_iff (ws : List String) (cat : List (List String)) (i : Nat) :
    findFlowerIdx ws cat = some i ↔
      (∃ e, cat.get? i = some e ∧ entryMatches ws e = true) ∧
      ∀ j e', j < i → cat.get? j = some e' → entryMatches ws e' = false := by
  induction cat generalizing i with
  | nil => simp [findFlowerIdx]
  | cons entry rest ih =>
    by_cases h : entryMatches ws entry = true
    · cases i with
      | zero => simp [findFlowerIdx, h]
      | succ n =>
        simp only [findFlowerIdx, if_pos h]
        constructor
        · intro hc; exact absurd hc (by simp)
        · rintro ⟨-, hprev⟩
          exact absurd (hprev 0 entry (Nat.succ_pos n) rfl) (by simp [h])
    · cases i with
      | zero =>
        simp only [findFlowerIdx, if_neg h]
        constructor
        · intro hc
          rcases Option.map_eq_some'.mp hc with ⟨m, -, hm⟩
          exact absurd hm (by simp)
        · rintro ⟨⟨e, he, hme⟩, -⟩
          simp only [List.get?] at he
          cases he
          exact absurd hme h
      | succ n =>
        simp only [findFlowerIdx, if_neg h]
        have hmap : (findFlowerIdx ws rest).map (· + 1) = some (n + 1) ↔
            findFlowerIdx ws rest = some n := by
          cases hr : findFlowerIdx ws rest <;> simp [hr]
        rw [hmap, ih n]
        constructor
        · rintro ⟨hex, hprev⟩
          refine ⟨hex, ?_⟩
          intro j e' hj hje
          cases j with
          | zero =>
            simp only [List.get?] at hje
            cases hje
            exact Bool.not_eq_true _ ▸ (by simpa using h)
          | succ m =>
            exact hprev m e' (Nat.lt_of_succ_lt_succ hj) hje
        · rintro ⟨hex, hprev⟩
          refine ⟨hex, ?_⟩
          intro j e' hj hje
          exact hprev (j + 1) e' (Nat.succ_lt_succ hj) hje

/-- Characterization: `findFlowerIdx` returns `none` exactly when no entry matches. -/
theorem findFlowerIdx_eq_none_iff (ws : List String) (cat : List (List String)) :
    findFlowerIdx ws cat = none ↔ ∀ e ∈ cat, entryMatches ws e = false := by
  induction cat with
  | nil => simp [findFlowerIdx]
  | cons entry rest ih =>
    by_cases h : entryMatches ws entry = true
    · simp [findFlowerIdx, h]
    · simp only [findFlowerIdx, if_neg h, Option.map_eq_none', ih,
        List.mem_cons]
      constructor
      · intro hall
        rintro e (rfl | he)
        · exact Bool.not_eq_true _ ▸ (by simpa using h)
        · exact hall e he
      · intro hall e he
        exact hall e (Or.inr he)

/-- C1: the phrase matcher counts a synonym as matched if and only if the
synonym's words (case-insensitively) form an ordered subsequence of the
tokenized utterance — each word consumes a token strictly after the one
consumed by the previous word; extra filler words around a one-word synonym
still match; "rose garden" does not match the two-word-short synonym
"rose of sharon"; and the out-of-order "sharon rose" does not match
"rose of sharon" either. -/
theorem C1_ordered_subsequence_matching :
    (∀ utterance nameEntry : String,
      synMatches utterance nameEntry = true ↔
        ((splitOnSpace nameEntry).map lowerStr).Sublist
          ((tokenize utterance).map lowerStr))
    ∧ synMatches "I would like to see a rose please" "rose" = true
    ∧ synMatches "rose garden" "rose of sharon" = false
    ∧ synMatches "sharon rose" "rose of sharon" = false :=
  ⟨fun _ _ => partsFound_iff_sublist _ _, by decide, by decide, by decide⟩

/-- C4: the matcher returns the index of the first catalogue entry (in
catalogue order) with a matching synonym — every earlier entry has no
matching synonym — and `none` (`foundIndex = -1`, NotFound) exactly when no
entry matches.  Synonyms inside an entry are tried in declaration order
(`List.any` evaluates left to right), first match wins. -/
theorem C4_first_match_wins :
    ∀ (utterance : String) (catalogue : List (List String)),
      (∀ i : Nat, matchUtterance utterance catalogue = some i ↔
        (∃ e, catalogue.get? i = some e ∧
          entryMatches (tokenize utterance) e = true) ∧
        ∀ j e', j < i → catalogue.get? j = some e' →
          entryMatches (tokenize utterance) e' = false)
      ∧ (matchUtterance utterance catalogue = none ↔
          ∀ e ∈ catalogue, entryMatches (tokenize utterance) e = false) :=
  fun utterance catalogue =>
    ⟨fun i => findFlowerIdx_eq_some_iff (tokenize utterance) catalogue i,
     findFlowerIdx_eq_none_iff (tokenize utterance) catalogue⟩

/-- C5 counterexample: the tokenizer's separator set is not exactly the
eight characters the claim lists — the regex `[ +\-_`\'.?!]+` also contains
the plus sign, so the code splits "a+b" into two tokens while a tokenizer
with the claimed set keeps it whole. -/
theorem C5_counterexample :
    tokenize "a+b" = ["a", "b"] ∧
    tokenizeSpecClaim "a+b" = ["a+b"] ∧
    tokenize "a+b" ≠ tokenizeSpecClaim "a+b" := by
  refine ⟨by decide, by decide, by decide⟩

/-- Pointwise equality of the code's separator predicate with membership in
the nine-character amended set. -/
theorem isSep_eq_amendedSet (c : Char) : isSep c = isSepAmendedSet c := by
  rw [Bool.eq_iff_iff]
  simp only [isSep, isSepAmendedSet, Bool.or_eq_true, decide_eq_true_eq,
    List.contains_cons, List.contains_nil, Bool.or_false, beq_iff_eq]
  tauto

/-- C5 amended: the matcher tokenizes by splitting on runs of the nine
characters space, plus, hyphen, underscore, backtick, apostrophe, period,
question mark and exclamation mark (the claimed set plus `+`), and
token-to-synonym-word comparison is case-insensitive equality of whole
tokens (so "ROSE" matches "rose" but "rosegarden" does not). -/
theorem C5_amended :
    (∀ s : String, tokenize s = splitRuns isSepAmendedSet s)
    ∧ synMatches "ROSE" "rose" = true
    ∧ synMatches "rose" "ROSE" = true
    ∧ synMatches "rosegarden" "rose" = false := by
  have hsep : isSep = isSepAmendedSet := funext isSep_eq_amendedSet
  refine ⟨fun s => ?_, by decide, by decide, by decide⟩
  rw [tokenize, hsep]

/-- C6: `measureDistance` returns `null` and `measureVelocity` returns the
zero vector whenever either input point is missing; both are total
functions, so no error is raised on missing input. -/
theorem C6_null_propagation :
    ∀ (sqrtFn : ℚ → ℚ) (p : Option Pt),
      measureDistance sqrtFn p none = none ∧
      measureDistance sqrtFn none p = none ∧
      measureVelocity sqrtFn p none = { x := 0, y := 0, speed := 0 } ∧
      measureVelocity sqrtFn none p = { x := 0, y := 0, speed := 0 } := by
  intro sqrtFn p
  refine ⟨?_, ?_, ?_, ?_⟩ <;> cases p <;> rfl

/-- The engine requests a tick issues, by branch: `start` exactly on the
closed-to-open transition, `stop` exactly on the timeout force-close. -/
theorem tickStep_acts (inp : TickInput) (s : UIState) :
    (tickStep inp s).2 =
      if 3 < inp.dist then
        (if s.mouthOpen = false ∧ 500 < inp.now - s.mouthCloseTime then
          [RecAction.start] else [])
      else
        (if s.mouthOpen = true ∧ 10000 < inp.now - s.mouthOpenTime then
          [RecAction.stop] else []) := by
  unfold tickStep
  by_cases hd : 3 < inp.dist
  · simp only [if_pos hd]
    by_cases ho : s.mouthOpen = false ∧ 500 < inp.now - s.mouthCloseTime
    · simp [ho]
    · simp [ho]
  · simp only [if_neg hd]
    by_cases ht : s.mouthOpen = true ∧ 10000 < inp.now - s.mouthOpenTime
    · simp [ht]
    · simp [ht]

/-- The velocity shift never changes the gesture flag. -/
theorem velocityShift_mouthOpen (inp : TickInput) (s : UIState) :
    (velocityShift inp s).mouthOpen = s.mouthOpen := by
  unfold velocityShift
  by_cases hc : s.mouthOpen = false ∧ 10 < qAbs inp.vy ∧ 500 < inp.now - s.velocityYTime
  · simp only [if_pos hc]
    by_cases hv : 0 < inp.vy <;> simp [hv]
  · simp [hc]

/-- The velocity shift is the identity when the nose's vertical speed does
not exceed 10. -/
theorem velocityShift_slow (inp : TickInput) (s : UIState)
    (hv : ¬ 10 < qAbs inp.vy) : velocityShift inp s = s := by
  unfold velocityShift
  simp [hv]

/-- The gesture flag after a tick, by branch. -/
theorem tickStep_mouthOpen (inp : TickInput) (s : UIState) :
    (tickStep inp s).1.mouthOpen =
      if 3 < inp.dist then
        (if s.mouthOpen = false ∧ 500 < inp.now - s.mouthCloseTime then
          true else s.mouthOpen)
      else
        (if s.mouthOpen = true ∧ 10000 < inp.now - s.mouthOpenTime then
          false else s.mouthOpen) := by
  unfold tickStep
  by_cases hd : 3 < inp.dist
  · by_cases hmo : s.mouthOpen = false <;>
      by_cases hct : 500 < inp.now - s.mouthCloseTime <;>
      by_cases hmc : s.mouthClose = true <;>
      simp [hd, hmo, hct, hmc, velocityShift_mouthOpen]
  · by_cases hto : s.mouthOpen = true <;>
      by_cases htt : 10000 < inp.now - s.mouthOpenTime <;>
      simp [hd, hto, htt, velocityShift_mouthOpen]

/-- On a timeout tick (distance at or below 3 with the mouth flag open for
more than 10000 ms, and no concurrent velocity shift) the engine is stopped,
the flag cleared, and the selection index set to the random draw. -/
theorem tickStep_timeout (inp : TickInput) (s : UIState)
    (hd : inp.dist ≤ 3) (ho : s.mouthOpen = true)
    (ht : 10000 < inp.now - s.mouthOpenTime) (hv : ¬ 10 < qAbs inp.vy) :
    (tickStep inp s).1.crtTVIndex = inp.rand ∧
    (tickStep inp s).1.mouthOpen = false ∧
    (tickStep inp s).2 = [RecAction.stop] := by
  have hd' : ¬ 3 < inp.dist := not_lt.mpr hd
  unfold tickStep
  simp [hd', ho, ht, velocityShift_slow _ _ hv]

/-- The inputs of the C2 test vector: distances `[1,1,4,4,1,1]` sampled
100 ms apart starting at `t = 0`, with no nose motion. -/
def c2Inputs : List TickInput :=
  [⟨0, 1, 0, 0⟩, ⟨100, 1, 0, 0⟩, ⟨200, 4, 0, 0⟩,
   ⟨300, 4, 0, 0⟩, ⟨400, 1, 0, 0⟩, ⟨500, 1, 0, 0⟩]

/-- C2 counterexample: on the distance sequence `[1,1,4,4,1,1]` sampled
100 ms apart from the closed start state, the code does NOT produce one
closed-to-open and one open-to-closed transition — it produces none of
either (no `start` and no `stop` request): each sample at or below the
open threshold re-arms `mouthCloseTime`, so 200 ms of open samples never
satisfy `now - mouthCloseTime > 500`. -/
theorem C2_counterexample :
    ¬ ((runTicks c2Inputs initState).2.count RecAction.start = 1 ∧
       (runTicks c2Inputs initState).2.count RecAction.stop = 1) := by decide

/-- C2 amended: on `[1,1,4,4,1,1]` sampled 100 ms apart from the closed
state the debouncer performs no transition at all (no engine request is
issued and the mouth flag stays closed), because every sample at or below
the open threshold re-arms the cooldown reference time `mouthCloseTime`;
in general the closed-to-open transition fires on a tick exactly when the
distance exceeds the open threshold 3, the mouth flag is closed, and more
than the 500 ms cooldown has passed since the last tick whose distance was
at or below the threshold. -/
theorem C2_amended :
    ((runTicks c2Inputs initState).2 = [] ∧
     (runTicks c2Inputs initState).1.mouthOpen = false) ∧
    ∀ (inp : TickInput) (s : UIState),
      RecAction.start ∈ (tickStep inp s).2 ↔
        3 < inp.dist ∧ s.mouthOpen = false ∧ 500 < inp.now - s.mouthCloseTime := by
  refine ⟨⟨by decide, by decide⟩, ?_⟩
  intro inp s
  rw [tickStep_acts]
  by_cases hd : 3 < inp.dist
  · by_cases ho : s.mouthOpen = false ∧ 500 < inp.now - s.mouthCloseTime
    · simp [hd, ho]
    · rw [if_pos hd, if_neg ho]
      simp only [List.not_mem_nil, false_iff]
      exact fun h => ho ⟨h.2.1, h.2.2⟩
  · rw [if_neg hd]
    by_cases ht : s.mouthOpen = true ∧ 10000 < inp.now - s.mouthOpenTime
    · rw [if_pos ht]
      simp only [List.mem_singleton, false_iff, reduceCtorEq]
      exact fun h => hd h.1
    · rw [if_neg ht]
      simp only [List.not_mem_nil, false_iff]
      exact fun h => hd h.1

/-- The state right after a closed-to-open transition at `t = 0`:
`mouthOpen = true`, `mouthOpenTime = 0`. -/
def sOpenAt0 : UIState :=
  { mouthOpen := true, mouthClose := false, mouthOpenTime := 0,
    mouthCloseTime := 0, velocityYTime := 0, crtTVIndex := 0 }

/-- Ticks every 2000 ms from `t = 2000` to `t = 20000` with the mouth-gap
distance constantly `4` (strictly above the open threshold `3`). -/
def c3Inputs : List TickInput :=
  (List.range 10).map (fun k => ⟨2000 * ((k : Int) + 1), 4, 0, 7⟩)

/-- C3 counterexample: starting right after an open transition at `t = 0`
and with the distance staying at `4 > 3` through `t = 20000`, the controller
never force-closes: no `stop` request is issued and the mouth flag is still
open at `t = 20000`, far past the claimed ~10000 ms timeout.  The timeout
test `now - mouthOpenTime > 10000` lives in the `distance3_4 <= 3` branch of
`drawUI`, so it is unreachable while the distance stays above the
threshold. -/
theorem C3_counterexample :
    (runTicks c3Inputs sOpenAt0).2.count RecAction.stop = 0 ∧
    (runTicks c3Inputs sOpenAt0).1.mouthOpen = true := by decide

/-- C3 amended: the timeout force-close (`stop` request, mouth flag cleared,
TimedOut outcome = random index) fires on a tick exactly when the distance
is at or below the open threshold `3`, the mouth flag is open, and more
than 10000 ms have elapsed since the open transition; hence it never fires
within 10000 ms of opening, and if the distance stays strictly above the
threshold it never fires at all. -/
theorem C3_amended :
    ∀ (inp : TickInput) (s : UIState),
      (RecAction.stop ∈ (tickStep inp s).2 ↔
        inp.dist ≤ 3 ∧ s.mouthOpen = true ∧ 10000 < inp.now - s.mouthOpenTime) ∧
      (RecAction.stop ∈ (tickStep inp s).2 → (tickStep inp s).1.mouthOpen = false) ∧
      (inp.dist ≤ 3 → s.mouthOpen = true → 10000 < inp.now - s.mouthOpenTime →
        ¬ 10 < qAbs inp.vy → (tickStep inp s).1.crtTVIndex = inp.rand) := by
  intro inp s
  refine ⟨?_, ?_, fun hd ho ht hv => (tickStep_timeout inp s hd ho ht hv).1⟩
  · rw [tickStep_acts]
    by_cases hd : 3 < inp.dist
    · rw [if_pos hd]
      by_cases ho : s.mouthOpen = false ∧ 500 < inp.now - s.mouthCloseTime
      · rw [if_pos ho]
        exact iff_of_false (by decide) (fun h => absurd hd (not_lt.mpr h.1))
      · rw [if_neg ho]
        exact iff_of_false (by decide) (fun h => absurd hd (not_lt.mpr h.1))
    · rw [if_neg hd]
      by_cases ht : s.mouthOpen = true ∧ 10000 < inp.now - s.mouthOpenTime
      · rw [if_pos ht]
        exact iff_of_true (by decide) ⟨not_lt.mp hd, ht.1, ht.2⟩
      · rw [if_neg ht]
        exact iff_of_false (by decide) (fun h => ht ⟨h.2.1, h.2.2⟩)
  · rw [tickStep_acts, tickStep_mouthOpen]
    by_cases hd : 3 < inp.dist
    · by_cases ho : s.mouthOpen = false ∧ 500 < inp.now - s.mouthCloseTime <;>
        simp [hd, ho]
    · by_cases ht : s.mouthOpen = true ∧ 10000 < inp.now - s.mouthOpenTime <;>
        simp [hd, ht]

/-- Witness for C3 amended: at `t = 20000` with distance `1` and the mouth
open since `t = 0`, the force-close fires and forwards the draw `7`. -/
theorem C3_amended_witness :
    RecAction.stop ∈ (tickStep ⟨20000, 1, 0, 7⟩ sOpenAt0).2 ∧
    (tickStep ⟨20000, 1, 0, 7⟩ sOpenAt0).1.crtTVIndex = 7 :=
  ⟨((C3_amended ⟨20000, 1, 0, 7⟩ sOpenAt0).1).mpr ⟨by decide, rfl, by decide⟩,
   (C3_amended ⟨20000, 1, 0, 7⟩ sOpenAt0).2.2 (by decide) rfl (by decide) (by decide)⟩

/-- C9: gesture transitions are edge-triggered.  While the mouth flag is
open no tick issues another `start` request (and symmetrically no `stop` is
issued from the closed state); a `start` is issued only on a tick that flips
closed to open, a `stop` only on a tick that flips open to closed.  Hence a
second open attempt without an intervening close leaves the single already
active capture window untouched. -/
theorem C9_edge_triggered :
    ∀ (inp : TickInput) (s : UIState),
      (s.mouthOpen = true → RecAction.start ∉ (tickStep inp s).2) ∧
      (s.mouthOpen = false → RecAction.stop ∉ (tickStep inp s).2) ∧
      (RecAction.start ∈ (tickStep inp s).2 →
        s.mouthOpen = false ∧ (tickStep inp s).1.mouthOpen = true) ∧
      (RecAction.stop ∈ (tickStep inp s).2 →
        s.mouthOpen = true ∧ (tickStep inp s).1.mouthOpen = false) := by
  intro inp s
  rw [tickStep_acts, tickStep_mouthOpen]
  by_cases hd : 3 < inp.dist
  · by_cases ho : s.mouthOpen = false ∧ 500 < inp.now - s.mouthCloseTime
    · simp [hd, ho, ho.1]
    · simp [hd, ho]
  · by_cases ht : s.mouthOpen = true ∧ 10000 < inp.now - s.mouthOpenTime
    · simp [hd, ht, ht.1]
    · simp [hd, ht]

/-- Witness for C9: from an open state, a tick with the distance above the
threshold issues no further `start` request. -/
theorem C9_edge_triggered_witness :
    RecAction.start ∉ (tickStep ⟨1000, 4, 0, 0⟩ sOpenAt0).2 :=
  (C9_edge_triggered ⟨1000, 4, 0, 0⟩ sOpenAt0).1 rfl

/-- C10 counterexample: with the mouth not open, a nose velocity of `20`
(so `abs(velocity5.y) > 10`) and exactly 500 ms since the last shift —
"at least 500 ms have passed", as the claim requires — the code does NOT
cycle the selection index: the guard is the strict
`(nowTime - velocityYTime) > 500`, which fails at exactly 500. -/
theorem C10_counterexample :
    initState.mouthOpen = false ∧ 10 < qAbs (20 : ℚ) ∧
    (500 : Int) ≤ (500 : Int) - initState.velocityYTime ∧
    velocityShift ⟨500, 1, 20, 0⟩ initState = initState := by decide

/-- C10 amended: the nose-velocity selection path.  On the mid-tick state
with the mouth flag not open, on a tick where `abs(velocity5.y)` exceeds
`10` and STRICTLY more than 500 ms have passed since the last shift, the
shift timestamp is updated and the selection index cycles by `+1`
(downward motion, `velocity5.y > 0`) or `-1` (upward motion) modulo the
catalogue size, so the resulting index always lies in `[0, numFlowers)`;
when the guard fails (in particular at exactly 500 ms) the tick leaves the
state unchanged. -/
theorem C10_velocity_cycling :
    ∀ (inp : TickInput) (s : UIState),
      (s.mouthOpen = false ∧ 10 < qAbs inp.vy ∧ 500 < inp.now - s.velocityYTime →
        (velocityShift inp s).velocityYTime = inp.now ∧
        (0 < inp.vy →
          (velocityShift inp s).crtTVIndex = (s.crtTVIndex + 1) % numFlowers) ∧
        (¬ 0 < inp.vy →
          (velocityShift inp s).crtTVIndex =
            (s.crtTVIndex + numFlowers - 1) % numFlowers) ∧
        (velocityShift inp s).crtTVIndex < numFlowers) ∧
      (¬ (s.mouthOpen = false ∧ 10 < qAbs inp.vy ∧ 500 < inp.now - s.velocityYTime) →
        velocityShift inp s = s) := by
  intro inp s
  constructor
  · intro hc
    by_cases hv : 0 < inp.vy
    · have h1 : velocityShift inp s =
          { s with velocityYTime := inp.now,
                   crtTVIndex := (s.crtTVIndex + 1) % numFlowers } := by
        unfold velocityShift
        simp [hc, hv]
      rw [h1]
      exact ⟨rfl, fun _ => rfl, fun hv' => absurd hv hv', Nat.mod_lt _ (by decide)⟩
    · have h1 : velocityShift inp s =
          { s with velocityYTime := inp.now,
                   crtTVIndex := (s.crtTVIndex + numFlowers - 1) % numFlowers } := by
        unfold velocityShift
        simp [hc, hv]
      rw [h1]
      exact ⟨rfl, fun hv' => absurd hv' hv, fun _ => rfl, Nat.mod_lt _ (by decide)⟩
  · intro hc
    unfold velocityShift
    simp [hc]

/-- Witness for C10: with the mouth closed, a downward nose velocity of 20
at `t = 1000` cycles the selection from 0 to 1, inside the catalogue
range. -/
theorem C10_velocity_cycling_witness :
    (velocityShift ⟨1000, 1, 20, 0⟩ initState).crtTVIndex =
      (initState.crtTVIndex + 1) % numFlowers ∧
    (velocityShift ⟨1000, 1, 20, 0⟩ initState).crtTVIndex < numFlowers :=
  ⟨((C10_velocity_cycling ⟨1000, 1, 20, 0⟩ initState).1 (by decide)).2.1 (by decide),
   ((C10_velocity_cycling ⟨1000, 1, 20, 0⟩ initState).1 (by decide)).2.2.2⟩

/-- C7: on a NotFound outcome (`showResult` with an utterance matching no
catalogue entry) and on a TimedOut outcome (timeout tick), the selection
index is set to exactly the value of the fresh random draw — for any prior
state, so independently of the previous index — and therefore lies in
`[0, numFlowers)` whenever the draw does (which `floor(random(n))`
guarantees); the same draw value yields the same index on both paths, the
two outcomes sharing the random-pick policy. -/
theorem C7_random_fallback (nowT : Int) (u : String) (r : Nat) (s : UIState)
    (inp : TickInput) (s' : UIState)
    (hu : matchUtterance u crtTVNames = none)
    (hd : inp.dist ≤ 3) (ho : s'.mouthOpen = true)
    (ht : 10000 < inp.now - s'.mouthOpenTime)
    (hv : ¬ 10 < qAbs inp.vy) :
    (showResultStep nowT true u r s).crtTVIndex = r ∧
    (tickStep inp s').1.crtTVIndex = inp.rand ∧
    (r < numFlowers → (showResultStep nowT true u r s).crtTVIndex < numFlowers) ∧
    (inp.rand < numFlowers → (tickStep inp s').1.crtTVIndex < numFlowers) ∧
    (inp.rand = r →
      (tickStep inp s').1.crtTVIndex = (showResultStep nowT true u r s).crtTVIndex) := by
  have hshow : (showResultStep nowT true u r s).crtTVIndex = r := by
    simp [showResultStep, hu]
  have htick := (tickStep_timeout inp s' hd ho ht hv).1
  refine ⟨hshow, htick, fun h => ?_, fun h => ?_, fun h => ?_⟩
  · rw [hshow]; exact h
  · rw [htick]; exact h
  · rw [htick, hshow, h]

/-- Witness for C7: the unmatched utterance "xyzzy" with draw 5 selects
index 5; a timeout tick with draw 9 selects index 9. -/
theorem C7_random_fallback_witness :
    (showResultStep 0 true "xyzzy" 5 initState).crtTVIndex = 5 ∧
    (tickStep ⟨20000, 1, 0, 9⟩ sOpenAt0).1.crtTVIndex = 9 :=
  ⟨(C7_random_fallback 0 "xyzzy" 5 initState ⟨20000, 1, 0, 9⟩ sOpenAt0
      (by decide) (by decide) rfl (by decide) (by decide)).1,
   (C7_random_fallback 0 "xyzzy" 5 initState ⟨20000, 1, 0, 9⟩ sOpenAt0
      (by decide) (by decide) rfl (by decide) (by decide)).2.1⟩

/-- C8: on a Matched(index) outcome, `showResult` sets the selection index
to exactly the matched catalogue entry's index; the whole resolution is the
single functional update below, so nothing else mutates the index during
it. -/
theorem C8_matched_index (nowT : Int) (u : String) (r : Nat) (s : UIState) (i : Nat)
    (h : matchUtterance u crtTVNames = some i) :
    (showResultStep nowT true u r s).crtTVIndex = i := by
  simp [showResultStep, h]

/-- Witness for C8: "rose" matches catalogue entry 13, and resolution
selects index 13. -/
theorem C8_matched_index_witness :
    (showResultStep 0 true "rose" 0 initState).crtTVIndex = 13 :=
  C8_matched_index 0 "rose" 0 initState 13 (by decide)
